import Mathlib

/-!
Shallow embedding of the chippie CHIP-8 virtual machine core
(src/interpreter/mod.rs, src/interpreter/instructions.rs,
src/interpreter/error.rs) and proofs about its decoder and
per-cycle step semantics.

Modelling conventions:
* Rust fixed-size arrays (`[u8; 16]`, `[u8; 4096]`, `[u16; 32]`,
  `[[u8; 64]; 32]`) are modelled as total functions `Nat → Nat`
  (resp. `Nat → Nat → Nat` for the screen); the machine only ever
  stores byte values, and updates go through `updFn`.
* Machine integers are `Nat` with wrap-around (`% 256`, `% 65536`)
  written explicitly exactly where the Rust code wraps
  (`overflowing_add`, `wrapping_add`, `u8` shifts).
* Fallible operations return an explicit result type.  Rust's
  bounds-checked indexing panics on an out-of-range index; those
  panics are modelled by the dedicated `crash` outcome (a panic
  aborts the interpreter, no state escapes it).
* The `rand::random::<u8>()` call is modelled by threading an
  explicit `rng` byte through `dispatch` and `tick`.
-/

/-- Memory size constant, `MEMORY_SIZE` in mod.rs. -/
def MEMORY_SIZE : Nat := 4096

/-- Stack slot count, `STACK_SIZE` in mod.rs. -/
def STACK_SIZE : Nat := 32

/-- Register count, `REGISTER_COUNT` in mod.rs. -/
def REGISTER_COUNT : Nat := 16

/-- Screen width in pixels, `SCREEN_WIDTH` in mod.rs. -/
def SCREEN_WIDTH : Nat := 64

/-- Screen height in pixels, `SCREEN_HEIGHT` in mod.rs. -/
def SCREEN_HEIGHT : Nat := 32

/-- Nominal instruction rate, `TICKS_PER_SECOND` in mod.rs. -/
def TICKS_PER_SECOND : Nat := 500

/-- Timer frequency, `TIMER_FREQUENCY` in mod.rs. -/
def TIMER_FREQUENCY : Nat := 60

/-- Timer divider, `TIMER_TICK_INTERVAL = TICKS_PER_SECOND / TIMER_FREQUENCY`. -/
def TIMER_TICK_INTERVAL : Nat := TICKS_PER_SECOND / TIMER_FREQUENCY

/-- Error type, mirroring `Chip8InterpreterError` in error.rs. -/
inductive Chip8InterpreterError where
  | romFileTooLarge
  | invalidInstruction (opcode : Nat)
  | programCounterOutOfBounds (address : Nat)
  | callStackDepthExceeded
  | callStackEmpty
  | memoryAccessError
  | invalidInputKey (value : Nat)
  | expectingInputKey
deriving DecidableEq, Repr

/-- Instruction type, mirroring the `Chip8Instruction` enum in
instructions.rs.  Register indices, immediates, addresses and sprite
lengths are all `Nat`; the decoder only produces in-range values. -/
inductive Chip8Instruction where
  | noOperation
  | syscall (address : Nat)
  | random (register : Nat) (mask : Nat)
  | call (address : Nat)
  | ret
  | storeRegisters (count : Nat)
  | loadRegisters (count : Nat)
  | jump (address : Nat)
  | jumpRelative (address : Nat)
  | clearScreen
  | selectCharacter (register : Nat)
  | storeBcd (register : Nat)
  | draw (x : Nat) (y : Nat) (len : Nat)
  | skipIfEqualValue (register : Nat) (value : Nat)
  | skipIfEqualRegister (x : Nat) (y : Nat)
  | skipIfNotEqualValue (register : Nat) (value : Nat)
  | skipIfNotEqualRegister (x : Nat) (y : Nat)
  | skipIfKeyPressed (register : Nat)
  | skipIfKeyNotPressed (register : Nat)
  | setIndex (address : Nat)
  | addIndex (register : Nat)
  | loadValue (register : Nat) (value : Nat)
  | copy (x : Nat) (y : Nat)
  | readDelayTimer (register : Nat)
  | setDelayTimer (register : Nat)
  | setSoundTimer (register : Nat)
  | waitForKey (register : Nat)
  | addValue (register : Nat) (value : Nat)
  | addRegister (x : Nat) (y : Nat)
  | subtractVxVy (x : Nat) (y : Nat)
  | subtractVyVx (x : Nat) (y : Nat)
  | or (x : Nat) (y : Nat)
  | and (x : Nat) (y : Nat)
  | xor (x : Nat) (y : Nat)
  | shiftRight (x : Nat) (y : Nat)
  | shiftLeft (x : Nat) (y : Nat)
deriving DecidableEq, Repr

/-- Decoder, mirroring `impl TryFrom<u16> for Chip8Instruction`
(instructions.rs lines 204-342).  The input is a 16-bit opcode; the
decoder dispatches on the high nibble and then, for classes 0, 8, E
and F, on the low byte or low nibble.  The final catch-all arm
corresponds to the `unreachable!()` in the source: it cannot be hit
for `opcode < 2 ^ 16`. -/
def Chip8Instruction.tryFrom (opcode : Nat) : Except Chip8InterpreterError Chip8Instruction :=
  let x : Nat := (opcode >>> 8) &&& 0x0f
  let y : Nat := (opcode >>> 4) &&& 0x0f
  let address : Nat := opcode &&& 0x0fff
  let value : Nat := opcode &&& 0xff
  match opcode >>> 12 with
  | 0x0 =>
    if opcode = 0x00e0 then .ok .clearScreen
    else if opcode = 0x00ee then .ok .ret
    else .ok .noOperation
  | 0x1 => .ok (.jump address)
  | 0x2 => .ok (.call address)
  | 0x3 => .ok (.skipIfEqualValue x value)
  | 0x4 => .ok (.skipIfNotEqualValue x value)
  | 0x5 => .ok (.skipIfEqualRegister x y)
  | 0x6 => .ok (.loadValue x value)
  | 0x7 => .ok (.addValue x value)
  | 0x8 =>
    if opcode &&& 0x000f = 0x0 then .ok (.copy x y)
    else if opcode &&& 0x000f = 0x1 then .ok (.or x y)
    else if opcode &&& 0x000f = 0x2 then .ok (.and x y)
    else if opcode &&& 0x000f = 0x3 then .ok (.xor x y)
    else if opcode &&& 0x000f = 0x4 then .ok (.addRegister x y)
    else if opcode &&& 0x000f = 0x5 then .ok (.subtractVxVy x y)
    else if opcode &&& 0x000f = 0x6 then .ok (.shiftRight x y)
    else if opcode &&& 0x000f = 0x7 then .ok (.subtractVyVx x y)
    else if opcode &&& 0x000f = 0xe then .ok (.shiftLeft x y)
    else .error (.invalidInstruction opcode)
  | 0x9 => .ok (.skipIfNotEqualRegister x y)
  | 0xa => .ok (.setIndex address)
  | 0xb => .ok (.jumpRelative address)
  | 0xc => .ok (.random x value)
  | 0xd => .ok (.draw x y (opcode &&& 0x0f))
  | 0xe =>
    if opcode &&& 0xff = 0x9e then .ok (.skipIfKeyPressed x)
    else if opcode &&& 0xff = 0xa1 then .ok (.skipIfKeyNotPressed x)
    else .error (.invalidInstruction opcode)
  | 0xf =>
    if opcode &&& 0xff = 0x07 then .ok (.readDelayTimer x)
    else if opcode &&& 0xff = 0x0a then .ok (.waitForKey x)
    else if opcode &&& 0xff = 0x15 then .ok (.setDelayTimer x)
    else if opcode &&& 0xff = 0x18 then .ok (.setSoundTimer x)
    else if opcode &&& 0xff = 0x1e then .ok (.addIndex x)
    else if opcode &&& 0xff = 0x29 then .ok (.selectCharacter x)
    else if opcode &&& 0xff = 0x33 then .ok (.storeBcd x)
    else if opcode &&& 0xff = 0x55 then .ok (.storeRegisters (x + 1))
    else if opcode &&& 0xff = 0x65 then .ok (.loadRegisters (x + 1))
    else .error (.invalidInstruction opcode)
  | _ => .error (.invalidInstruction opcode)

deriving instance DecidableEq for Except

/-- Machine state, mirroring `Chip8InterpreterState` in mod.rs. -/
structure Chip8InterpreterState where
  registers : Nat → Nat
  stack : Nat → Nat
  memory : Nat → Nat
  screen : Nat → Nat → Nat
  input_keys : Nat
  i : Nat
  st : Nat
  dt : Nat
  pc : Nat
  sp : Nat

/-- Interpreter = machine state plus the timer divider counter,
mirroring `Chip8Interpreter` in mod.rs. -/
structure Chip8Interpreter where
  state : Chip8InterpreterState
  timer_counter : Nat

/-- Pointwise update of a function-modelled array. -/
def updFn (f : Nat → Nat) (k v : Nat) : Nat → Nat :=
  fun j => if j = k then v else f j

/-- Pointwise update of one screen pixel. -/
def updScreen (s : Nat → Nat → Nat) (py px v : Nat) : Nat → Nat → Nat :=
  fun r c => if r = py ∧ c = px then v else s r c

/-- Outcome of `Chip8Interpreter::dispatch`.  `ok` and `fail` carry the
machine state (Rust mutates through `&mut self`, so the state as
mutated up to a `return Err` survives the call); `crash` models a Rust
index-out-of-bounds panic, which aborts the interpreter. -/
inductive DispatchResult where
  | ok (s : Chip8InterpreterState)
  | fail (e : Chip8InterpreterError) (s : Chip8InterpreterState)
  | crash

/-- Outcome of `Chip8Interpreter::tick`, at the interpreter level. -/
inductive TickResult where
  | ok (m : Chip8Interpreter)
  | fail (e : Chip8InterpreterError) (m : Chip8Interpreter)
  | crash

/-- One iteration of the inner pixel loop of the Draw arm
(mod.rs lines 265-273): XOR sprite bit `c0` of `row` into the screen
at row `py`, column `(pos_x + 7 - c0) % SCREEN_WIDTH`, and record a
collision when a set pixel became unset. -/
def drawStep (pos_x py row : Nat) (sf : (Nat → Nat → Nat) × Bool) (c0 : Nat) :
    (Nat → Nat → Nat) × Bool :=
  let px := (pos_x + 7 - c0) % SCREEN_WIDTH
  let old := sf.1 py px
  let nv := old ^^^ ((row >>> c0) &&& 1)
  (updScreen sf.1 py px nv, sf.2 || (decide (0 < old) && decide (nv = 0)))

/-- The inner pixel loop of the Draw arm: 8 horizontal pixels. -/
def drawRow (pos_x py row : Nat) (sf : (Nat → Nat → Nat) × Bool) :
    (Nat → Nat → Nat) × Bool :=
  (List.range 8).foldl (drawStep pos_x py row) sf

/-- The outer sprite-row loop of the Draw arm (mod.rs lines 260-274):
row `r` is read from `memory[i + r]` and drawn at screen row
`(pos_y + r) % SCREEN_HEIGHT`. -/
def drawSprite (memory : Nat → Nat) (idx pos_x pos_y len : Nat)
    (sf : (Nat → Nat → Nat) × Bool) : (Nat → Nat → Nat) × Bool :=
  (List.range len).foldl
    (fun sf r => drawRow pos_x ((pos_y + r) % SCREEN_HEIGHT) (memory (idx + r)) sf) sf

/-- Instruction dispatch, mirroring `Chip8Interpreter::dispatch`
(mod.rs lines 170-424).  `rng` is the byte produced by
`rand::random::<u8>()` for the Random arm.  Comments in individual
arms note where Rust's implicit bounds checks (panics) appear as
explicit `crash` outcomes. -/
def dispatch (rng : Nat) (instruction : Chip8Instruction) (s : Chip8InterpreterState) :
    DispatchResult :=
  match instruction with
  | .noOperation => .ok s
  | .syscall _ => .ok s
  | .random register mask =>
    .ok { s with registers := updFn s.registers register ((rng % 256) &&& mask) }
  | .call address =>
    if STACK_SIZE - 1 < s.sp then .fail .callStackDepthExceeded s
    else .ok { s with stack := updFn s.stack s.sp s.pc, sp := s.sp + 1, pc := address }
  | .ret =>
    if s.sp = 0 then .fail .callStackEmpty s
    else .ok { s with sp := s.sp - 1, pc := s.stack (s.sp - 1) }
  | .storeRegisters count =>
    if MEMORY_SIZE < s.i + count then .fail .memoryAccessError s
    else if REGISTER_COUNT < count then .crash
      -- the loop `registers[i]` for `i in 0..count` would index past the
      -- 16-entry register file
    else
      let mem := (List.range count).foldl (fun mem k => updFn mem (s.i + k) (s.registers k)) s.memory
      .ok { s with memory := mem }
  | .loadRegisters count =>
    if MEMORY_SIZE < s.i + count then .fail .memoryAccessError s
    else if REGISTER_COUNT < count then .crash
    else
      let regs := (List.range count).foldl (fun regs k => updFn regs k (s.memory (s.i + k))) s.registers
      .ok { s with registers := regs }
  | .jump address => .ok { s with pc := address }
  | .jumpRelative address =>
    if MEMORY_SIZE - 1 < s.registers 0 + address then .fail .memoryAccessError s
    else .ok { s with pc := s.registers 0 + address }
  | .clearScreen => .ok { s with screen := fun _ _ => 0 }
  | .selectCharacter register =>
    .ok { s with i := s.registers register * 5 }
  | .storeBcd register =>
    if MEMORY_SIZE < s.i + 3 then .fail .memoryAccessError s
    else
      let mem1 := updFn s.memory s.i (s.registers register / 100)
      let mem2 := updFn mem1 (s.i + 1) (s.registers register / 10 % 10)
      .ok { s with memory := updFn mem2 (s.i + 2) (s.registers register % 10) }
  | .draw x y len =>
    -- the sprite-row read `memory[i + sprite_row_index]` is not bounds
    -- checked in the source; an out-of-range read panics
    if 0 < len ∧ MEMORY_SIZE < s.i + len then .crash
    else
      let res := drawSprite s.memory s.i (s.registers x) (s.registers y) len (s.screen, false)
      .ok { s with screen := res.1,
                   registers := updFn s.registers 15 (if res.2 then 1 else 0) }
  | .skipIfEqualValue register value =>
    if s.registers register = value then .ok { s with pc := s.pc + 2 } else .ok s
  | .skipIfEqualRegister x y =>
    if s.registers x = s.registers y then .ok { s with pc := s.pc + 2 } else .ok s
  | .skipIfNotEqualValue register value =>
    if s.registers register ≠ value then .ok { s with pc := s.pc + 2 } else .ok s
  | .skipIfNotEqualRegister x y =>
    if s.registers x ≠ s.registers y then .ok { s with pc := s.pc + 2 } else .ok s
  | .skipIfKeyPressed register =>
    if 15 < s.registers register then .fail (.invalidInputKey (s.registers register)) s
    else if 0 < s.input_keys &&& (1 <<< s.registers register) then .ok { s with pc := s.pc + 2 }
    else .ok s
  | .skipIfKeyNotPressed register =>
    if 15 < s.registers register then .fail (.invalidInputKey (s.registers register)) s
    else if s.input_keys &&& (1 <<< s.registers register) = 0 then .ok { s with pc := s.pc + 2 }
    else .ok s
  | .setIndex address => .ok { s with i := address }
  | .addIndex register =>
    .ok { s with i := (s.i + s.registers register) % 65536 }
  | .loadValue register value =>
    .ok { s with registers := updFn s.registers register value }
  | .copy x y =>
    .ok { s with registers := updFn s.registers x (s.registers y) }
  | .readDelayTimer register =>
    .ok { s with registers := updFn s.registers register s.dt }
  | .setDelayTimer register => .ok { s with dt := s.registers register }
  | .setSoundTimer register => .ok { s with st := s.registers register }
  | .waitForKey register =>
    if s.input_keys = 0 then .fail .expectingInputKey s
    else
      match (List.range 16).find? (fun k => decide (0 < s.input_keys &&& (1 <<< k))) with
      | some k => .ok { s with registers := updFn s.registers register k }
      | none => .ok s
  | .addValue register value =>
    let sum := (s.registers register + value) % 256
    let carry := 256 ≤ s.registers register + value
    let regs := updFn (updFn s.registers register sum) 15 (if carry then 0 else 1)
    .ok { s with registers := regs }
  | .addRegister x y =>
    let sum := (s.registers x + s.registers y) % 256
    let carry := 256 ≤ s.registers x + s.registers y
    let regs := updFn (updFn s.registers x sum) 15 (if carry then 1 else 0)
    .ok { s with registers := regs }
  | .subtractVxVy x y =>
    let sub := if s.registers y ≤ s.registers x
      then s.registers x - s.registers y
      else 256 + s.registers x - s.registers y
    let borrow := s.registers x < s.registers y
    let regs := updFn (updFn s.registers x sub) 15 (if borrow then 0 else 1)
    .ok { s with registers := regs }
  | .subtractVyVx x y =>
    let sub := if s.registers x ≤ s.registers y
      then s.registers y - s.registers x
      else 256 + s.registers y - s.registers x
    let borrow := s.registers y < s.registers x
    let regs := updFn (updFn s.registers x sub) 15 (if borrow then 0 else 1)
    .ok { s with registers := regs }
  | .or x y =>
    .ok { s with registers := updFn s.registers x (s.registers x ||| s.registers y) }
  | .and x y =>
    .ok { s with registers := updFn s.registers x (s.registers x &&& s.registers y) }
  | .xor x y =>
    .ok { s with registers := updFn s.registers x (s.registers x ^^^ s.registers y) }
  | .shiftRight x _ =>
    let carry := s.registers x &&& 1
    let regs := updFn (updFn s.registers x (s.registers x >>> 1)) 15 carry
    .ok { s with registers := regs }
  | .shiftLeft x _ =>
    let carry := s.registers x >>> 7
    let regs := updFn (updFn s.registers x ((s.registers x <<< 1) % 256)) 15 carry
    .ok { s with registers := regs }

/-- Timer update, mirroring `Chip8Interpreter::update_timers`
(mod.rs lines 155-168). -/
def updateTimers (m : Chip8Interpreter) : Chip8Interpreter :=
  if TIMER_TICK_INTERVAL ≤ m.timer_counter + 1 then
    { state := { m.state with
        st := if 0 < m.state.st then m.state.st - 1 else m.state.st,
        dt := if 0 < m.state.dt then m.state.dt - 1 else m.state.dt },
      timer_counter := 0 }
  else { m with timer_counter := m.timer_counter + 1 }

/-- The 16-bit opcode fetched at the program counter
(mod.rs lines 137-138); memory cells are bytes (`% 256` models the
`u8` type of the cells). -/
def fetchOpcode (s : Chip8InterpreterState) : Nat :=
  ((s.memory s.pc % 256) <<< 8) ||| (s.memory (s.pc + 1) % 256)

/-- Whether an instruction is the wait-for-key instruction. -/
def Chip8Instruction.isWaitForKey : Chip8Instruction → Bool
  | .waitForKey _ => true
  | _ => false

/-- One emulated cycle, mirroring `Chip8Interpreter::tick`
(mod.rs lines 129-153). -/
def tick (rng : Nat) (m : Chip8Interpreter) : TickResult :=
  if MEMORY_SIZE ≤ m.state.pc + 1 then
    .fail (.programCounterOutOfBounds m.state.pc) m
  else
    match Chip8Instruction.tryFrom (fetchOpcode m.state) with
    | .error e => .fail e m
    | .ok instruction =>
      if instruction.isWaitForKey && m.state.input_keys == 0 then .ok m
      else
        match dispatch rng instruction { m.state with pc := m.state.pc + 2 } with
        | .ok s2 => .ok (updateTimers { state := s2, timer_counter := m.timer_counter })
        | .fail e s2 => .fail e { state := s2, timer_counter := m.timer_counter }
        | .crash => .crash

/-- Iterate `tick` for `n` steps, `none` as soon as a step does not
succeed.  Step `k` uses the random byte `rngs k`. -/
def tickRun (rngs : Nat → Nat) : Nat → Chip8Interpreter → Option Chip8Interpreter
  | 0, m => some m
  | n + 1, m =>
    (tickRun rngs n m).bind fun mk =>
      match tick (rngs n) mk with
      | .ok m2 => some m2
      | .fail _ _ => none
      | .crash => none

/-- The machine state of a successful dispatch, `none` otherwise. -/
def dispatchOkState : DispatchResult → Option Chip8InterpreterState
  | .ok s => some s
  | .fail _ _ => none
  | .crash => none

/-- Whether a tick outcome is specifically an `ExpectingInputKey` failure. -/
def isExpectingFail : TickResult → Bool
  | .fail .expectingInputKey _ => true
  | _ => false

/-- Whether a dispatch outcome is specifically an `ExpectingInputKey` failure. -/
def isExpectingFailD : DispatchResult → Bool
  | .fail .expectingInputKey _ => true
  | _ => false

/-- An all-zero machine state with the program counter at the standard
base address, used for concrete test states. -/
def zeroState : Chip8InterpreterState where
  registers := fun _ => 0
  stack := fun _ => 0
  memory := fun _ => 0
  screen := fun _ _ => 0
  input_keys := 0
  i := 0
  st := 0
  dt := 0
  pc := 512
  sp := 0

/-- Reading an updated array at a different index. -/
theorem updFn_ne (f : Nat → Nat) (k v j : Nat) (h : j ≠ k) : updFn f k v j = f j := by
  simp [updFn, h]

/-- Reading an updated array at the updated index. -/
theorem updFn_eq (f : Nat → Nat) (k v : Nat) : updFn f k v k = v := by
  simp [updFn]

/-- C1: the claim says every sprite-row read of a Draw stays within the
4096-byte memory, or the Draw fails with an error instead of reading
out of bounds.  The code has no such check: with `index_register =
4095` and sprite length 2 the second row read indexes `memory[4096]`,
which is a bounds-check panic (modelled as `crash`), not a returned
error.  This theorem evaluates the dispatcher at that failing input:
the sprite span leaves memory and the outcome is a crash, not a
`fail`. -/
theorem chip8_c1_draw_unchecked_read_crashes :
    MEMORY_SIZE < 4095 + 2 ∧
    dispatch 0 (.draw 0 1 2) { zeroState with i := 4095 } = .crash := by
  exact ⟨by decide, rfl⟩

/-- C9: the shift instructions compute the stored value from register
x's own prior value only: the decoded y operand never influences the
result (dispatch is literally constant in y), and the new register
file is exactly `x := old x` shifted with register 15 receiving the
shifted-out bit. -/
theorem chip8_c9_shifts_ignore_y (s : Chip8InterpreterState) (rng x y y2 : Nat) :
    dispatch rng (.shiftRight x y) s = dispatch rng (.shiftRight x y2) s ∧
    dispatch rng (.shiftLeft x y) s = dispatch rng (.shiftLeft x y2) s ∧
    dispatch rng (.shiftRight x y) s =
      .ok { s with registers := updFn (updFn s.registers x (s.registers x >>> 1)) 15 (s.registers x &&& 1) } ∧
    dispatch rng (.shiftLeft x y) s =
      .ok { s with registers := updFn (updFn s.registers x ((s.registers x <<< 1) % 256)) 15 (s.registers x >>> 7) } :=
  ⟨rfl, rfl, rfl, rfl⟩

/-- C2: flag semantics of the ALU instructions, for arbitrary 8-bit
operand values in registers x and y (x not the flag register itself):
`AddValue` stores the mod-256 sum and sets register 15 to 1 exactly
when the addition did NOT carry; `AddRegister` sets the flag to 1 on
carry; both subtracts set the flag to 1 exactly when no borrow
occurred; `ShiftRight` stores the pre-shift bit 0 and `ShiftLeft` the
pre-shift bit 7 in register 15. -/
theorem chip8_c2_alu_flags (s : Chip8InterpreterState) (rng x y v : Nat)
    (hx15 : x ≠ 15) (ha : s.registers x < 256) (hb : s.registers y < 256) (hv : v < 256) :
    (∃ s2, dispatch rng (.addValue x v) s = .ok s2 ∧
      s2.registers x = (s.registers x + v) % 256 ∧
      (256 ≤ s.registers x + v → s2.registers 15 = 0) ∧
      (s.registers x + v < 256 → s2.registers 15 = 1)) ∧
    (∃ s2, dispatch rng (.addRegister x y) s = .ok s2 ∧
      s2.registers x = (s.registers x + s.registers y) % 256 ∧
      (256 ≤ s.registers x + s.registers y → s2.registers 15 = 1) ∧
      (s.registers x + s.registers y < 256 → s2.registers 15 = 0)) ∧
    (∃ s2, dispatch rng (.subtractVxVy x y) s = .ok s2 ∧
      s2.registers x = (s.registers x + 256 - s.registers y) % 256 ∧
      (s.registers y ≤ s.registers x → s2.registers 15 = 1) ∧
      (s.registers x < s.registers y → s2.registers 15 = 0)) ∧
    (∃ s2, dispatch rng (.subtractVyVx x y) s = .ok s2 ∧
      s2.registers x = (s.registers y + 256 - s.registers x) % 256 ∧
      (s.registers x ≤ s.registers y → s2.registers 15 = 1) ∧
      (s.registers y < s.registers x → s2.registers 15 = 0)) ∧
    (∃ s2, dispatch rng (.shiftRight x y) s = .ok s2 ∧
      s2.registers x = s.registers x / 2 ∧ s2.registers 15 = s.registers x % 2) ∧
    (∃ s2, dispatch rng (.shiftLeft x y) s = .ok s2 ∧
      s2.registers x = s.registers x * 2 % 256 ∧ s2.registers 15 = s.registers x / 128) := by
  refine ⟨⟨_, rfl, ?_, fun h => ?_, fun h => ?_⟩, ⟨_, rfl, ?_, fun h => ?_, fun h => ?_⟩,
    ⟨_, rfl, ?_, fun h => ?_, fun h => ?_⟩, ⟨_, rfl, ?_, fun h => ?_, fun h => ?_⟩,
    ⟨_, rfl, ?_, ?_⟩, ⟨_, rfl, ?_, ?_⟩⟩
  · show updFn (updFn s.registers x ((s.registers x + v) % 256)) 15
      (if 256 ≤ s.registers x + v then 0 else 1) x = _
    rw [updFn_ne _ _ _ _ hx15, updFn_eq]
  · show updFn (updFn s.registers x ((s.registers x + v) % 256)) 15
      (if 256 ≤ s.registers x + v then 0 else 1) 15 = 0
    rw [updFn_eq, if_pos h]
  · show updFn (updFn s.registers x ((s.registers x + v) % 256)) 15
      (if 256 ≤ s.registers x + v then 0 else 1) 15 = 1
    rw [updFn_eq, if_neg (by omega)]
  · show updFn (updFn s.registers x ((s.registers x + s.registers y) % 256)) 15
      (if 256 ≤ s.registers x + s.registers y then 1 else 0) x = _
    rw [updFn_ne _ _ _ _ hx15, updFn_eq]
  · show updFn (updFn s.registers x ((s.registers x + s.registers y) % 256)) 15
      (if 256 ≤ s.registers x + s.registers y then 1 else 0) 15 = 1
    rw [updFn_eq, if_pos h]
  · show updFn (updFn s.registers x ((s.registers x + s.registers y) % 256)) 15
      (if 256 ≤ s.registers x + s.registers y then 1 else 0) 15 = 0
    rw [updFn_eq, if_neg (by omega)]
  · show updFn (updFn s.registers x (if s.registers y ≤ s.registers x
        then s.registers x - s.registers y else 256 + s.registers x - s.registers y)) 15
      (if s.registers x < s.registers y then 0 else 1) x = _
    rw [updFn_ne _ _ _ _ hx15, updFn_eq]
    split <;> omega
  · show updFn (updFn s.registers x (if s.registers y ≤ s.registers x
        then s.registers x - s.registers y else 256 + s.registers x - s.registers y)) 15
      (if s.registers x < s.registers y then 0 else 1) 15 = 1
    rw [updFn_eq, if_neg (by omega)]
  · show updFn (updFn s.registers x (if s.registers y ≤ s.registers x
        then s.registers x - s.registers y else 256 + s.registers x - s.registers y)) 15
      (if s.registers x < s.registers y then 0 else 1) 15 = 0
    rw [updFn_eq, if_pos h]
  · show updFn (updFn s.registers x (if s.registers x ≤ s.registers y
        then s.registers y - s.registers x else 256 + s.registers y - s.registers x)) 15
      (if s.registers y < s.registers x then 0 else 1) x = _
    rw [updFn_ne _ _ _ _ hx15, updFn_eq]
    split <;> omega
  · show updFn (updFn s.registers x (if s.registers x ≤ s.registers y
        then s.registers y - s.registers x else 256 + s.registers y - s.registers x)) 15
      (if s.registers y < s.registers x then 0 else 1) 15 = 1
    rw [updFn_eq, if_neg (by omega)]
  · show updFn (updFn s.registers x (if s.registers x ≤ s.registers y
        then s.registers y - s.registers x else 256 + s.registers y - s.registers x)) 15
      (if s.registers y < s.registers x then 0 else 1) 15 = 0
    rw [updFn_eq, if_pos h]
  · show updFn (updFn s.registers x (s.registers x >>> 1)) 15 (s.registers x &&& 1) x = _
    rw [updFn_ne _ _ _ _ hx15, updFn_eq, Nat.shiftRight_eq_div_pow]
  · show updFn (updFn s.registers x (s.registers x >>> 1)) 15 (s.registers x &&& 1) 15 = _
    rw [updFn_eq, Nat.and_one_is_mod]
  · show updFn (updFn s.registers x ((s.registers x <<< 1) % 256)) 15 (s.registers x >>> 7) x = _
    rw [updFn_ne _ _ _ _ hx15, updFn_eq, Nat.shiftLeft_eq]
  · show updFn (updFn s.registers x ((s.registers x <<< 1) % 256)) 15 (s.registers x >>> 7) 15 = _
    rw [updFn_eq, Nat.shiftRight_eq_div_pow]

set_option maxHeartbeats 1000000 in
/-- Helper: `dispatch` can only raise `ExpectingInputKey` from the
WaitForKey arm, and only when no key is held. -/
theorem dispatch_not_expecting (rng : Nat) (instruction : Chip8Instruction)
    (s : Chip8InterpreterState)
    (h : instruction.isWaitForKey = true → s.input_keys ≠ 0) :
    isExpectingFailD (dispatch rng instruction s) = false := by
  cases instruction
  case waitForKey r =>
    have hk : s.input_keys ≠ 0 := h rfl
    simp only [dispatch, if_neg hk]
    cases hf : (List.range 16).find? (fun k => decide (0 < s.input_keys &&& (1 <<< k))) <;>
      simp [hf, isExpectingFailD]
  all_goals simp only [dispatch]
  all_goals first
    | rfl
    | (repeat' split) <;> rfl

set_option maxHeartbeats 1000000 in
/-- Helper: the decoder never produces an `ExpectingInputKey` error. -/
theorem tryFrom_ne_expecting (opcode : Nat) :
    Chip8Instruction.tryFrom opcode ≠ .error .expectingInputKey := by
  unfold Chip8Instruction.tryFrom
  intro h
  split at h <;> (try (repeat' split at h))
  all_goals first
    | exact Except.noConfusion h
    | (injection h with h2; exact Chip8InterpreterError.noConfusion h2)

/-- C4: `step` (tick) never returns the `ExpectingInputKey` error: the
wait-for-key poll in `tick` returns success before dispatch whenever
the fetched instruction is WaitForKey and no key is held, so the
`ExpectingInputKey` branch of the WaitForKey dispatch arm is
unreachable from `tick`, for every interpreter state and random
byte. -/
theorem chip8_c4_no_expecting (m : Chip8Interpreter) (rng : Nat) :
    isExpectingFail (tick rng m) = false := by
  unfold tick
  split
  · rfl
  · split
    case h_1 e heq =>
      have hne := tryFrom_ne_expecting (fetchOpcode m.state)
      rw [heq] at hne
      cases e <;> first | rfl | exact absurd rfl hne
    case h_2 instruction heq =>
      split
      · rfl
      · rename_i hcond
        have hkey : instruction.isWaitForKey = true → m.state.input_keys ≠ 0 := by
          intro hw hk
          rw [Bool.not_eq_true] at hcond
          simp [hw, hk] at hcond
        have hne := dispatch_not_expecting rng instruction { m.state with pc := m.state.pc + 2 } hkey
        split
        · rfl
        · rename_i e s2 heq2
          rw [heq2] at hne
          cases e <;> first | rfl | (exfalso; simp [isExpectingFailD] at hne)
        · rfl

/-- C5: when the fetched instruction decodes to WaitForKey and no key
is held, `tick` returns success with the interpreter completely
unchanged: same program counter, registers, timers, memory, screen,
stack, stack pointer and timer divider counter (the result is the
very same interpreter value). -/
theorem chip8_c5_wait_leaves_state (m : Chip8Interpreter) (rng r : Nat)
    (hpc : m.state.pc + 1 < MEMORY_SIZE)
    (hdec : Chip8Instruction.tryFrom (fetchOpcode m.state) = .ok (.waitForKey r))
    (hkeys : m.state.input_keys = 0) :
    tick rng m = .ok m := by
  unfold tick
  rw [if_neg (by omega), hdec]
  simp [Chip8Instruction.isWaitForKey, hkeys]

/-- A concrete interpreter whose next instruction is `WaitForKey`
(opcode 0xF00A at the program counter) with no key held. -/
def M5 : Chip8Interpreter where
  state := { zeroState with memory := fun a => if a = 512 then 0xf0 else if a = 513 then 0x0a else 0 }
  timer_counter := 0

/-- Witness for C5 at a concrete machine. -/
theorem chip8_c5_witness : tick 0 M5 = .ok M5 :=
  chip8_c5_wait_leaves_state M5 0 0 (by decide) (by decide) rfl

/-- Pointwise description of the StoreRegisters write loop. -/
theorem storeFold_eq (regs : Nat → Nat) (base : Nat) :
    ∀ (n : Nat) (mem : Nat → Nat) (a : Nat),
      ((List.range n).foldl (fun mem k => updFn mem (base + k) (regs k)) mem) a
        = if base ≤ a ∧ a < base + n then regs (a - base) else mem a := by
  intro n
  induction n with
  | zero =>
    intro mem a
    rw [List.range_zero, List.foldl_nil, if_neg (by omega)]
  | succ n ih =>
    intro mem a
    rw [List.range_succ, List.foldl_append, List.foldl_cons, List.foldl_nil]
    by_cases hc : a = base + n
    · subst hc
      rw [updFn_eq, if_pos (by omega)]
      congr 1
      omega
    · rw [updFn_ne _ _ _ _ hc, ih]
      by_cases hd : base ≤ a ∧ a < base + n
      · rw [if_pos hd, if_pos (by omega)]
      · rw [if_neg hd, if_neg (by omega)]

/-- Pointwise description of the LoadRegisters read loop. -/
theorem loadFold_eq (mem : Nat → Nat) (base : Nat) :
    ∀ (n : Nat) (regs : Nat → Nat) (k : Nat),
      ((List.range n).foldl (fun regs j => updFn regs j (mem (base + j))) regs) k
        = if k < n then mem (base + k) else regs k := by
  intro n
  induction n with
  | zero =>
    intro regs k
    rw [List.range_zero, List.foldl_nil, if_neg (by omega)]
  | succ n ih =>
    intro regs k
    rw [List.range_succ, List.foldl_append, List.foldl_cons, List.foldl_nil]
    by_cases hc : k = n
    · subst hc
      rw [updFn_eq, if_pos (by omega)]
    · rw [updFn_ne _ _ _ _ hc, ih]
      by_cases hd : k < n
      · rw [if_pos hd, if_pos (by omega)]
      · rw [if_neg hd, if_neg (by omega)]

/-- C10: for every successful StoreRegisters and LoadRegisters the
index register is unchanged afterwards (the loop iterates over a local
cursor and does not post-increment I), exactly registers 0 through
count-1 are transferred (all other memory cells resp. registers keep
their values), and on the MemoryAccessError failure path the machine
state is entirely unchanged (the failure result carries the entry
state itself). -/
theorem chip8_c10_block_transfer :
    (∀ (s : Chip8InterpreterState) (rng count : Nat),
      s.i + count ≤ MEMORY_SIZE → count ≤ REGISTER_COUNT →
      ∃ s2, dispatch rng (.storeRegisters count) s = .ok s2 ∧
        s2.i = s.i ∧ s2.registers = s.registers ∧
        (∀ k, k < count → s2.memory (s.i + k) = s.registers k) ∧
        (∀ a, a < s.i ∨ s.i + count ≤ a → s2.memory a = s.memory a) ∧
        s2.pc = s.pc ∧ s2.screen = s.screen ∧ s2.stack = s.stack ∧ s2.sp = s.sp) ∧
    (∀ (s : Chip8InterpreterState) (rng count : Nat),
      s.i + count ≤ MEMORY_SIZE → count ≤ REGISTER_COUNT →
      ∃ s2, dispatch rng (.loadRegisters count) s = .ok s2 ∧
        s2.i = s.i ∧ s2.memory = s.memory ∧
        (∀ k, k < count → s2.registers k = s.memory (s.i + k)) ∧
        (∀ k, count ≤ k → s2.registers k = s.registers k) ∧
        s2.pc = s.pc ∧ s2.screen = s.screen ∧ s2.stack = s.stack ∧ s2.sp = s.sp) ∧
    (∀ (s : Chip8InterpreterState) (rng count : Nat),
      MEMORY_SIZE < s.i + count →
      dispatch rng (.storeRegisters count) s = .fail .memoryAccessError s) ∧
    (∀ (s : Chip8InterpreterState) (rng count : Nat),
      MEMORY_SIZE < s.i + count →
      dispatch rng (.loadRegisters count) s = .fail .memoryAccessError s) := by
  refine ⟨?_, ?_, ?_, ?_⟩
  · intro s rng count hmem hcount
    have hd : dispatch rng (.storeRegisters count) s =
        .ok { s with memory := (List.range count).foldl (fun mem k => updFn mem (s.i + k) (s.registers k)) s.memory } := by
      simp only [dispatch]
      rw [if_neg (by omega), if_neg (by omega)]
    refine ⟨_, hd, rfl, rfl, ?_, ?_, rfl, rfl, rfl, rfl⟩
    · intro k hk
      show ((List.range count).foldl (fun mem k => updFn mem (s.i + k) (s.registers k)) s.memory) (s.i + k) = _
      rw [storeFold_eq, if_pos (by omega)]
      congr 1
      omega
    · intro a ha
      show ((List.range count).foldl (fun mem k => updFn mem (s.i + k) (s.registers k)) s.memory) a = _
      rw [storeFold_eq, if_neg (by omega)]
  · intro s rng count hmem hcount
    have hd : dispatch rng (.loadRegisters count) s =
        .ok { s with registers := (List.range count).foldl (fun regs j => updFn regs j (s.memory (s.i + j))) s.registers } := by
      simp only [dispatch]
      rw [if_neg (by omega), if_neg (by omega)]
    refine ⟨_, hd, rfl, rfl, ?_, ?_, rfl, rfl, rfl, rfl⟩
    · intro k hk
      show ((List.range count).foldl (fun regs j => updFn regs j (s.memory (s.i + j))) s.registers) k = _
      rw [loadFold_eq, if_pos hk]
    · intro k hk
      show ((List.range count).foldl (fun regs j => updFn regs j (s.memory (s.i + j))) s.registers) k = _
      rw [loadFold_eq, if_neg (by omega)]
  · intro s rng count hmem
    simp only [dispatch]
    rw [if_pos (by omega)]
  · intro s rng count hmem
    simp only [dispatch]
    rw [if_pos (by omega)]

/-- Witness for C10: a store of registers 0-2 at index 0x300 succeeds
on a concrete state, and a store whose span leaves memory fails with
`MemoryAccessError` leaving the state unchanged. -/
theorem chip8_c10_witness :
    (∃ s2, dispatch 0 (.storeRegisters 3) { zeroState with i := 768 } = .ok s2 ∧
      s2.i = ({ zeroState with i := 768 } : Chip8InterpreterState).i ∧
      s2.registers = ({ zeroState with i := 768 } : Chip8InterpreterState).registers ∧
      (∀ k, k < 3 → s2.memory (({ zeroState with i := 768 } : Chip8InterpreterState).i + k) =
        ({ zeroState with i := 768 } : Chip8InterpreterState).registers k) ∧
      (∀ a, a < ({ zeroState with i := 768 } : Chip8InterpreterState).i ∨
          ({ zeroState with i := 768 } : Chip8InterpreterState).i + 3 ≤ a →
        s2.memory a = ({ zeroState with i := 768 } : Chip8InterpreterState).memory a) ∧
      s2.pc = ({ zeroState with i := 768 } : Chip8InterpreterState).pc ∧
      s2.screen = ({ zeroState with i := 768 } : Chip8InterpreterState).screen ∧
      s2.stack = ({ zeroState with i := 768 } : Chip8InterpreterState).stack ∧
      s2.sp = ({ zeroState with i := 768 } : Chip8InterpreterState).sp) ∧
    dispatch 0 (.storeRegisters 5) { zeroState with i := 4092 } =
      .fail .memoryAccessError { zeroState with i := 4092 } :=
  ⟨chip8_c10_block_transfer.1 { zeroState with i := 768 } 0 3 (by decide) (by decide),
   chip8_c10_block_transfer.2.2.1 { zeroState with i := 4092 } 0 5 (by decide)⟩
/-- Concrete state with registers 0 and 1 holding 200 and 100. -/
def stateAdd : Chip8InterpreterState :=
  { zeroState with registers := fun j => if j = 0 then 200 else if j = 1 then 100 else 0 }

/-- Concrete state with registers 0 and 1 holding 5 and 10. -/
def stateSub : Chip8InterpreterState :=
  { zeroState with registers := fun j => if j = 0 then 5 else if j = 1 then 10 else 0 }

/-- Witness for C2: `AddRegister` on 200 and 100 yields 44 with flag 1,
and `SubtractVxVy` on 5 and 10 yields 251 with flag 0. -/
theorem chip8_c2_witness :
    (∃ s2, dispatch 0 (.addRegister 0 1) stateAdd = .ok s2 ∧
      s2.registers 0 = 44 ∧ s2.registers 15 = 1) ∧
    (∃ s2, dispatch 0 (.subtractVxVy 0 1) stateSub = .ok s2 ∧
      s2.registers 0 = 251 ∧ s2.registers 15 = 0) := by
  constructor
  · obtain ⟨-, ⟨s2, hd, hv, hc, -⟩, -⟩ :=
      chip8_c2_alu_flags stateAdd 0 0 1 0 (by decide) (by decide) (by decide) (by decide)
    exact ⟨s2, hd, by rw [hv]; decide, hc (by decide)⟩
  · obtain ⟨-, -, ⟨s2, hd, hv, -, hc⟩, -⟩ :=
      chip8_c2_alu_flags stateSub 0 0 1 0 (by decide) (by decide) (by decide) (by decide)
    exact ⟨s2, hd, by rw [hv]; decide, hc (by decide)⟩

/-- C8: decoder totality pattern.  For every 16-bit opcode whose high
nibble is in {0,1,2,3,4,6,7,9,A,B,C,D} decoding succeeds; class-0
values other than 0x00E0 and 0x00EE decode as the no-op; for high
nibble 8 decoding succeeds exactly for low nibbles {0..7, E} and every
other low nibble fails with `InvalidInstruction` carrying the raw
opcode. -/
theorem chip8_c8_decode (opcode : Nat) (hop : opcode < 65536) :
    ((opcode >>> 12 = 0 ∨ opcode >>> 12 = 1 ∨ opcode >>> 12 = 2 ∨ opcode >>> 12 = 3 ∨
      opcode >>> 12 = 4 ∨ opcode >>> 12 = 6 ∨ opcode >>> 12 = 7 ∨ opcode >>> 12 = 9 ∨
      opcode >>> 12 = 10 ∨ opcode >>> 12 = 11 ∨ opcode >>> 12 = 12 ∨ opcode >>> 12 = 13) →
      ∃ instruction, Chip8Instruction.tryFrom opcode = .ok instruction) ∧
    (opcode >>> 12 = 0 → opcode ≠ 0x00e0 → opcode ≠ 0x00ee →
      Chip8Instruction.tryFrom opcode = .ok .noOperation) ∧
    (opcode >>> 12 = 8 →
      ((opcode &&& 15 < 8 ∨ opcode &&& 15 = 14) →
        ∃ instruction, Chip8Instruction.tryFrom opcode = .ok instruction) ∧
      (8 ≤ opcode &&& 15 → opcode &&& 15 ≠ 14 →
        Chip8Instruction.tryFrom opcode = .error (.invalidInstruction opcode))) := by
  refine ⟨?_, ?_, ?_⟩
  · intro h
    rcases h with h|h|h|h|h|h|h|h|h|h|h|h <;>
      (simp only [Chip8Instruction.tryFrom, h]; (repeat' split) <;> exact ⟨_, rfl⟩)
  · intro h h1 h2
    simp only [Chip8Instruction.tryFrom, h]
    rw [if_neg h1, if_neg h2]
  · intro h8
    constructor
    · intro hlo
      have hc : opcode &&& 15 = 0 ∨ opcode &&& 15 = 1 ∨ opcode &&& 15 = 2 ∨
          opcode &&& 15 = 3 ∨ opcode &&& 15 = 4 ∨ opcode &&& 15 = 5 ∨
          opcode &&& 15 = 6 ∨ opcode &&& 15 = 7 ∨ opcode &&& 15 = 14 := by omega
      rcases hc with hc|hc|hc|hc|hc|hc|hc|hc|hc <;>
        (simp [Chip8Instruction.tryFrom, h8, hc])
    · intro hge hne
      have e0 : ¬(opcode &&& 15 = 0) := by omega
      have e1 : ¬(opcode &&& 15 = 1) := by omega
      have e2 : ¬(opcode &&& 15 = 2) := by omega
      have e3 : ¬(opcode &&& 15 = 3) := by omega
      have e4 : ¬(opcode &&& 15 = 4) := by omega
      have e5 : ¬(opcode &&& 15 = 5) := by omega
      have e6 : ¬(opcode &&& 15 = 6) := by omega
      have e7 : ¬(opcode &&& 15 = 7) := by omega
      simp only [Chip8Instruction.tryFrom, h8]
      rw [if_neg e0, if_neg e1, if_neg e2, if_neg e3, if_neg e4, if_neg e5, if_neg e6,
        if_neg e7, if_neg hne]

/-- Witness for C8 at concrete opcodes 0x8AB4 (class 8 ALU, decodes),
0x0123 (class 0, decodes as no-op) and 0x8AB8 (class 8, low nibble 8,
invalid). -/
theorem chip8_c8_witness :
    (∃ instruction, Chip8Instruction.tryFrom 0x8ab4 = .ok instruction) ∧
    Chip8Instruction.tryFrom 0x0123 = .ok .noOperation ∧
    Chip8Instruction.tryFrom 0x8ab8 = .error (.invalidInstruction 0x8ab8) :=
  ⟨((chip8_c8_decode 0x8ab4 (by decide)).2.2 (by decide)).1 (by decide),
   (chip8_c8_decode 0x0123 (by decide)).2.1 (by decide) (by decide) (by decide),
   ((chip8_c8_decode 0x8ab8 (by decide)).2.2 (by decide)).2 (by decide) (by decide)⟩
/-- Whether an instruction leaves both timers untouched (everything
except `SetDelayTimer` and `SetSoundTimer`). -/
def timerFree : Chip8Instruction → Bool
  | .setDelayTimer _ => false
  | .setSoundTimer _ => false
  | _ => true

/-- A step counts for the C6 scenario when the fetched opcode decodes,
the decoded instruction touches no timer, and the step is not a
wait-for-key poll (so an instruction actually executes). -/
def goodTick (m : Chip8Interpreter) : Bool :=
  match Chip8Instruction.tryFrom (fetchOpcode m.state) with
  | .ok instruction =>
    timerFree instruction && !(instruction.isWaitForKey && m.state.input_keys == 0)
  | .error _ => false

set_option maxHeartbeats 1000000 in
/-- Helper: a dispatched instruction that is timer-free leaves `dt` and
`st` unchanged. -/
theorem dispatch_timers (rng : Nat) (instruction : Chip8Instruction)
    (s s2 : Chip8InterpreterState) (hfree : timerFree instruction = true)
    (h : dispatch rng instruction s = .ok s2) : s2.dt = s.dt ∧ s2.st = s.st := by
  cases instruction <;> simp only [dispatch] at h <;>
    (try (repeat' split at h)) <;>
    first
      | (cases h; exact ⟨rfl, rfl⟩)
      | exact DispatchResult.noConfusion h
      | simp [timerFree] at hfree

/-- Helper: one counted step advances the timer divider counter and
decrements the timers exactly when the counter reaches
`TIMER_TICK_INTERVAL`. -/
theorem tick_timer_step (rng : Nat) (m m2 : Chip8Interpreter)
    (hok : tick rng m = .ok m2) (hgood : goodTick m = true) :
    (m2.timer_counter = if TIMER_TICK_INTERVAL ≤ m.timer_counter + 1 then 0 else m.timer_counter + 1) ∧
    (m2.state.dt = if TIMER_TICK_INTERVAL ≤ m.timer_counter + 1
      then (if 0 < m.state.dt then m.state.dt - 1 else m.state.dt) else m.state.dt) ∧
    (m2.state.st = if TIMER_TICK_INTERVAL ≤ m.timer_counter + 1
      then (if 0 < m.state.st then m.state.st - 1 else m.state.st) else m.state.st) := by
  unfold tick at hok
  split at hok
  · exact TickResult.noConfusion hok
  · split at hok
    case h_1 e heq1 => exact TickResult.noConfusion hok
    case h_2 instruction heq1 =>
      unfold goodTick at hgood
      split at hgood
      case h_2 e heq2 => rw [heq1] at heq2; exact Except.noConfusion heq2
      case h_1 instruction2 heq2 =>
        rw [heq1] at heq2
        injection heq2 with hinj
        subst hinj
        rw [Bool.and_eq_true] at hgood
        obtain ⟨hfree, hnw⟩ := hgood
        rw [Bool.not_eq_true'] at hnw
        rw [if_neg (by rw [hnw]; exact Bool.false_ne_true)] at hok
        split at hok
        case h_2 => exact TickResult.noConfusion hok
        case h_3 => exact TickResult.noConfusion hok
        case h_1 s2 heq3 =>
          obtain ⟨hdt, hst⟩ := dispatch_timers rng _ _ s2 hfree heq3
          cases hok
          unfold updateTimers
          split <;> simp_all

/-- Helper: peel the last step off a successful `tickRun`. -/
theorem tickRun_succ_some (rngs : Nat → Nat) (n : Nat) (m0 m2 : Chip8Interpreter)
    (h : tickRun rngs (n + 1) m0 = some m2) :
    ∃ mk, tickRun rngs n m0 = some mk ∧ tick (rngs n) mk = .ok m2 := by
  unfold tickRun at h
  cases hk : tickRun rngs n m0 with
  | none => rw [hk] at h; exact Option.noConfusion h
  | some mk =>
    rw [hk] at h
    rw [Option.some_bind] at h
    cases ht : tick (rngs n) mk with
    | ok mb =>
      rw [ht] at h
      injection h with h2
      exact ⟨mk, rfl, by rw [ht, h2]⟩
    | fail e s => rw [ht] at h; exact Option.noConfusion h
    | crash => rw [ht] at h; exact Option.noConfusion h

/-- Helper: a counted step below the divider threshold increments the
counter and leaves both timers unchanged. -/
theorem tick_timer_mid (rng : Nat) (ma mb : Chip8Interpreter) (k : Nat)
    (hk : k + 1 < TIMER_TICK_INTERVAL) (htc : ma.timer_counter = k)
    (hok : tick rng ma = .ok mb) (hg : goodTick ma = true) :
    mb.timer_counter = k + 1 ∧ mb.state.dt = ma.state.dt ∧ mb.state.st = ma.state.st := by
  obtain ⟨a, b, c⟩ := tick_timer_step rng ma mb hok hg
  rw [htc] at a b c
  rw [if_neg (by omega)] at a b c
  exact ⟨a, b, c⟩

/-- Helper: the step that reaches the divider threshold resets the
counter and decrements positive timers by one. -/
theorem tick_timer_last (rng : Nat) (ma mb : Chip8Interpreter)
    (htc : ma.timer_counter = TIMER_TICK_INTERVAL - 1)
    (hok : tick rng ma = .ok mb) (hg : goodTick ma = true) :
    mb.timer_counter = 0 ∧
    mb.state.dt = (if 0 < ma.state.dt then ma.state.dt - 1 else ma.state.dt) ∧
    mb.state.st = (if 0 < ma.state.st then ma.state.st - 1 else ma.state.st) := by
  have hT : TIMER_TICK_INTERVAL = 8 := rfl
  obtain ⟨a, b, c⟩ := tick_timer_step rng ma mb hok hg
  rw [htc] at a b c
  rw [if_pos (by omega)] at a b c
  exact ⟨a, b, c⟩

/-- C6: starting from a freshly reset timer divider (counter 0), after
exactly `TICKS_PER_SECOND / 60` successful steps, none of which is a
wait-for-key poll and none of which executes a timer-touching
instruction, the delay timer has decreased by exactly 1 when it was
initially positive (and the sound timer likewise); and the timer
update never wraps a timer below zero: each update either leaves a
timer unchanged or decrements it by exactly one from a positive
value. -/
theorem chip8_c6_timer_decay :
    (∀ (m0 m8 : Chip8Interpreter) (rngs : Nat → Nat),
      m0.timer_counter = 0 →
      tickRun rngs TIMER_TICK_INTERVAL m0 = some m8 →
      (∀ k, k < TIMER_TICK_INTERVAL → ((tickRun rngs k m0).map goodTick).getD false = true) →
      (0 < m0.state.dt → m8.state.dt = m0.state.dt - 1) ∧
      (m8.state.st = if 0 < m0.state.st then m0.state.st - 1 else m0.state.st)) ∧
    (∀ m : Chip8Interpreter,
      ((updateTimers m).state.dt = m.state.dt ∨ (updateTimers m).state.dt + 1 = m.state.dt) ∧
      ((updateTimers m).state.st = m.state.st ∨ (updateTimers m).state.st + 1 = m.state.st)) := by
  constructor
  · intro m0 m8 rngs h0 hrun hgood
    have hT : TIMER_TICK_INTERVAL = 8 := rfl
    rw [hT] at hrun
    obtain ⟨m7, hr7, ht7⟩ := tickRun_succ_some rngs 7 m0 m8 hrun
    obtain ⟨m6, hr6, ht6⟩ := tickRun_succ_some rngs 6 m0 m7 hr7
    obtain ⟨m5, hr5, ht5⟩ := tickRun_succ_some rngs 5 m0 m6 hr6
    obtain ⟨m4, hr4, ht4⟩ := tickRun_succ_some rngs 4 m0 m5 hr5
    obtain ⟨m3, hr3, ht3⟩ := tickRun_succ_some rngs 3 m0 m4 hr4
    obtain ⟨m2, hr2, ht2⟩ := tickRun_succ_some rngs 2 m0 m3 hr3
    obtain ⟨m1, hr1, ht1⟩ := tickRun_succ_some rngs 1 m0 m2 hr2
    obtain ⟨m0b, hr0, ht0⟩ := tickRun_succ_some rngs 0 m0 m1 hr1
    unfold tickRun at hr0
    injection hr0 with hr0b
    subst hr0b
    have hg0 := hgood 0 (by omega)
    have hg1 := hgood 1 (by omega)
    have hg2 := hgood 2 (by omega)
    have hg3 := hgood 3 (by omega)
    have hg4 := hgood 4 (by omega)
    have hg5 := hgood 5 (by omega)
    have hg6 := hgood 6 (by omega)
    have hg7 := hgood 7 (by omega)
    unfold tickRun at hg0
    rw [hr1] at hg1
    rw [hr2] at hg2
    rw [hr3] at hg3
    rw [hr4] at hg4
    rw [hr5] at hg5
    rw [hr6] at hg6
    rw [hr7] at hg7
    simp only [Option.map_some', Option.getD_some] at hg0 hg1 hg2 hg3 hg4 hg5 hg6 hg7
    obtain ⟨a1, b1, c1⟩ := tick_timer_mid (rngs 0) m0 m1 0 (by decide) h0 ht0 hg0
    obtain ⟨a2, b2, c2⟩ := tick_timer_mid (rngs 1) m1 m2 1 (by decide) a1 ht1 hg1
    obtain ⟨a3, b3, c3⟩ := tick_timer_mid (rngs 2) m2 m3 2 (by decide) a2 ht2 hg2
    obtain ⟨a4, b4, c4⟩ := tick_timer_mid (rngs 3) m3 m4 3 (by decide) a3 ht3 hg3
    obtain ⟨a5, b5, c5⟩ := tick_timer_mid (rngs 4) m4 m5 4 (by decide) a4 ht4 hg4
    obtain ⟨a6, b6, c6⟩ := tick_timer_mid (rngs 5) m5 m6 5 (by decide) a5 ht5 hg5
    obtain ⟨a7, b7, c7⟩ := tick_timer_mid (rngs 6) m6 m7 6 (by decide) a6 ht6 hg6
    obtain ⟨a8, b8, c8⟩ := tick_timer_last (rngs 7) m7 m8 (by rw [a7]; decide) ht7 hg7
    constructor
    · intro hdt
      rw [b8, b7, b6, b5, b4, b3, b2, b1]
      rw [if_pos (by omega)]
    · rw [c8, c7, c6, c5, c4, c3, c2, c1]
  · intro m
    unfold updateTimers
    split
    · constructor
      · by_cases hdt : 0 < m.state.dt
        · right
          simp only [if_pos hdt]
          omega
        · left
          simp only [if_neg hdt]
      · by_cases hst : 0 < m.state.st
        · right
          simp only [if_pos hst]
          omega
        · left
          simp only [if_neg hst]
    · exact ⟨Or.inl rfl, Or.inl rfl⟩

/-- A concrete freshly reset interpreter with delay timer 5; all of
memory is zero, so every fetched opcode decodes to the no-op. -/
def M6 : Chip8Interpreter where
  state := { zeroState with dt := 5 }
  timer_counter := 0

/-- Witness for C6: running exactly 8 no-op steps on `M6` decrements
the delay timer from 5 to 4 and leaves the sound timer at 0. -/
theorem chip8_c6_witness :
    ∃ m8, tickRun (fun _ => 0) TIMER_TICK_INTERVAL M6 = some m8 ∧
      m8.state.dt = 4 ∧ m8.state.st = 0 := by
  cases h : tickRun (fun _ => 0) TIMER_TICK_INTERVAL M6 with
  | none =>
    exfalso
    have hs : (tickRun (fun _ => 0) TIMER_TICK_INTERVAL M6).isSome = true := by decide
    rw [h] at hs
    exact Bool.noConfusion hs
  | some m8 =>
    obtain ⟨hdt, hst⟩ := chip8_c6_timer_decay.1 M6 m8 (fun _ => 0) rfl h (by decide)
    exact ⟨m8, rfl, (hdt (by decide)).trans (by decide), hst.trans (by decide)⟩
/-- XOR-accumulation of a per-iteration pixel mask over an index list. -/
def maskFold (mk : Nat → Nat → Nat → Nat) : List Nat → Nat → Nat → Nat
  | [], _, _ => 0
  | a :: L, r, c => mk a r c ^^^ maskFold mk L r c

/-- Generic shape of the draw loops: if every iteration XORs a mask
(that does not depend on the screen) into the screen, the whole fold
XORs the accumulated mask, pointwise. -/
theorem foldl_screen_xor {g : (Nat → Nat → Nat) × Bool → Nat → (Nat → Nat → Nat) × Bool}
    {mk : Nat → Nat → Nat → Nat}
    (hg : ∀ sf idx r c, (g sf idx).1 r c = sf.1 r c ^^^ mk idx r c) :
    ∀ (L : List Nat) (sf : (Nat → Nat → Nat) × Bool) (r c : Nat),
      (L.foldl g sf).1 r c = sf.1 r c ^^^ maskFold mk L r c := by
  intro L
  induction L with
  | nil =>
    intro sf r c
    rw [List.foldl_nil]
    show sf.1 r c = sf.1 r c ^^^ 0
    rw [Nat.xor_zero]
  | cons a L ih =>
    intro sf r c
    rw [List.foldl_cons, ih, hg]
    show _ = sf.1 r c ^^^ (mk a r c ^^^ maskFold mk L r c)
    rw [Nat.xor_assoc]

/-- The pixel mask of one iteration of the inner draw loop. -/
def stepMask (pos_x py row c0 r c : Nat) : Nat :=
  if r = py ∧ c = (pos_x + 7 - c0) % SCREEN_WIDTH then (row >>> c0) &&& 1 else 0

/-- One inner-loop iteration XORs exactly its `stepMask`. -/
theorem drawStep_screen (pos_x py row : Nat) (sf : (Nat → Nat → Nat) × Bool)
    (c0 r c : Nat) :
    (drawStep pos_x py row sf c0).1 r c = sf.1 r c ^^^ stepMask pos_x py row c0 r c := by
  show updScreen sf.1 py ((pos_x + 7 - c0) % SCREEN_WIDTH)
      (sf.1 py ((pos_x + 7 - c0) % SCREEN_WIDTH) ^^^ ((row >>> c0) &&& 1)) r c = _
  unfold updScreen stepMask
  split
  case isTrue h =>
    obtain ⟨h1, h2⟩ := h
    subst h1
    subst h2
    rfl
  case isFalse h =>
    rw [Nat.xor_zero]

/-- The pixel mask of a whole inner loop (one sprite row). -/
def innerMask (pos_x py row : Nat) : Nat → Nat → Nat :=
  maskFold (stepMask pos_x py row) (List.range 8)

/-- A sprite-row draw XORs exactly its `innerMask`, pointwise. -/
theorem drawRow_screen (pos_x py row : Nat) (sf : (Nat → Nat → Nat) × Bool) (r c : Nat) :
    (drawRow pos_x py row sf).1 r c = sf.1 r c ^^^ innerMask pos_x py row r c :=
  foldl_screen_xor (drawStep_screen pos_x py row) (List.range 8) sf r c

/-- The per-row mask of the outer draw loop. -/
def spriteMask (memory : Nat → Nat) (idx pos_x pos_y : Nat) : Nat → Nat → Nat → Nat :=
  fun rr => innerMask pos_x ((pos_y + rr) % SCREEN_HEIGHT) (memory (idx + rr))

/-- A whole sprite draw XORs exactly the accumulated row masks,
pointwise. -/
theorem drawSprite_screen (memory : Nat → Nat) (idx pos_x pos_y len : Nat)
    (sf : (Nat → Nat → Nat) × Bool) (r c : Nat) :
    (drawSprite memory idx pos_x pos_y len sf).1 r c
      = sf.1 r c ^^^ maskFold (spriteMask memory idx pos_x pos_y) (List.range len) r c :=
  foldl_screen_xor
    (fun sf rr r c => drawRow_screen pos_x ((pos_y + rr) % SCREEN_HEIGHT) (memory (idx + rr)) sf r c)
    (List.range len) sf r c

/-- A mask fold over contributions that all vanish at a cell is zero
there. -/
theorem maskFold_zero {mk : Nat → Nat → Nat → Nat} {r c : Nat} :
    ∀ {L : List Nat}, (∀ a ∈ L, mk a r c = 0) → maskFold mk L r c = 0 := by
  intro L
  induction L with
  | nil => intro _; rfl
  | cons a L ih =>
    intro h
    show mk a r c ^^^ maskFold mk L r c = 0
    rw [h a (List.mem_cons_self a L), ih fun b hb => h b (List.mem_cons_of_mem a hb),
      Nat.xor_zero]

/-- A mask fold where only the contribution of one index survives at a
cell equals that single contribution. -/
theorem maskFold_single {mk : Nat → Nat → Nat → Nat} {r c a0 : Nat} :
    ∀ {L : List Nat}, a0 ∈ L → L.Nodup → (∀ a ∈ L, a ≠ a0 → mk a r c = 0) →
      maskFold mk L r c = mk a0 r c := by
  intro L
  induction L with
  | nil => intro h; exact absurd h (List.not_mem_nil a0)
  | cons a L ih =>
    intro hmem hnd h
    show mk a r c ^^^ maskFold mk L r c = mk a0 r c
    rw [List.nodup_cons] at hnd
    by_cases ha : a = a0
    · subst ha
      rw [maskFold_zero fun b hb => h b (List.mem_cons_of_mem a hb)
        (fun hba => hnd.1 (hba ▸ hb)), Nat.xor_zero]
    · rw [h a (List.mem_cons_self a L) ha, Nat.zero_xor]
      have hmem2 : a0 ∈ L := by
        rcases List.mem_cons.1 hmem with h2 | h2
        · exact absurd h2.symm ha
        · exact h2
      exact ih hmem2 hnd.2 fun b hb hba => h b (List.mem_cons_of_mem a hb) hba

/-- A sprite-row draw leaves every other screen row unchanged. -/
theorem drawRow_other (pos_x py row : Nat) (sf : (Nat → Nat → Nat) × Bool)
    (r c : Nat) (h : r ≠ py) : (drawRow pos_x py row sf).1 r c = sf.1 r c := by
  rw [drawRow_screen]
  unfold innerMask
  rw [maskFold_zero fun a _ => by unfold stepMask; rw [if_neg fun hc => h hc.1]]
  rw [Nat.xor_zero]

/-- `List.range n` is pairwise ordered with an upper bound on the
larger element. -/
theorem pairwise_range_bounded (n : Nat) :
    (List.range n).Pairwise (fun a b => a < b ∧ b < n) := by
  induction n with
  | zero => simp
  | succ n ih =>
    rw [List.range_succ]
    rw [List.pairwise_append]
    refine ⟨ih.imp fun h => ⟨h.1, by omega⟩, List.pairwise_singleton _ _, ?_⟩
    intro a ha b hb
    rw [List.mem_range] at ha
    rw [List.mem_singleton] at hb
    subst hb
    exact ⟨ha, by omega⟩

/-- Flag output of the inner pixel loop, characterised against a
reference screen `scr0` that agrees with the working screen on all
targeted pixels: the final flag is the initial flag OR-ed with
"some sprite bit turned a set pixel off", evaluated on `scr0`.
Requires the targeted pixel columns of the iteration list to be
pairwise distinct, so that each pixel is read before it is ever
written. -/
theorem drawRow_flagFold (pos_x py row : Nat) :
    ∀ (L : List Nat) (scr scr0 : Nat → Nat → Nat) (f : Bool),
      (∀ c0 ∈ L, scr py ((pos_x + 7 - c0) % SCREEN_WIDTH) = scr0 py ((pos_x + 7 - c0) % SCREEN_WIDTH)) →
      L.Pairwise (fun a b => (pos_x + 7 - a) % SCREEN_WIDTH ≠ (pos_x + 7 - b) % SCREEN_WIDTH) →
      (L.foldl (drawStep pos_x py row) (scr, f)).2
        = (f || L.any fun c0 =>
            decide (0 < scr0 py ((pos_x + 7 - c0) % SCREEN_WIDTH)) &&
            decide (scr0 py ((pos_x + 7 - c0) % SCREEN_WIDTH) ^^^ ((row >>> c0) &&& 1) = 0)) := by
  intro L
  induction L with
  | nil =>
    intro scr scr0 f hagree hpw
    rw [List.foldl_nil, List.any_nil, Bool.or_false]
  | cons a L ih =>
    intro scr scr0 f hagree hpw
    rw [List.pairwise_cons] at hpw
    have ha := hagree a (List.mem_cons_self a L)
    rw [List.foldl_cons]
    have hagree2 : ∀ c0 ∈ L,
        (drawStep pos_x py row (scr, f) a).1 py ((pos_x + 7 - c0) % SCREEN_WIDTH)
          = scr0 py ((pos_x + 7 - c0) % SCREEN_WIDTH) := by
      intro c0 hc0
      show updScreen scr py ((pos_x + 7 - a) % SCREEN_WIDTH) _ py ((pos_x + 7 - c0) % SCREEN_WIDTH)
        = _
      unfold updScreen
      rw [if_neg fun hcc => hpw.1 c0 hc0 hcc.2.symm]
      exact hagree c0 (List.mem_cons_of_mem a hc0)
    have hstep : drawStep pos_x py row (scr, f) a
        = ((drawStep pos_x py row (scr, f) a).1, (drawStep pos_x py row (scr, f) a).2) := rfl
    rw [hstep, ih _ scr0 _ hagree2 hpw.2]
    have hflag : (drawStep pos_x py row (scr, f) a).2
        = (f || (decide (0 < scr py ((pos_x + 7 - a) % SCREEN_WIDTH)) &&
            decide (scr py ((pos_x + 7 - a) % SCREEN_WIDTH) ^^^ ((row >>> a) &&& 1) = 0))) := rfl
    rw [hflag, ha, List.any_cons, Bool.or_assoc]

/-- Flag output of one sprite-row draw against the row's own starting
screen. -/
theorem drawRow_flag (pos_x py row : Nat) (scr : Nat → Nat → Nat) (f : Bool) :
    (drawRow pos_x py row (scr, f)).2
      = (f || (List.range 8).any fun c0 =>
          decide (0 < scr py ((pos_x + 7 - c0) % SCREEN_WIDTH)) &&
          decide (scr py ((pos_x + 7 - c0) % SCREEN_WIDTH) ^^^ ((row >>> c0) &&& 1) = 0)) := by
  unfold drawRow
  refine drawRow_flagFold pos_x py row (List.range 8) scr scr f (fun _ _ => rfl) ?_
  refine (pairwise_range_bounded 8).imp ?_
  intro a b hab
  simp only [SCREEN_WIDTH]
  omega

/-- Flag output of the outer sprite loop against a reference screen
that agrees with the working screen on all targeted rows, for pairwise
distinct targeted rows. -/
theorem drawSprite_flagFold (memory : Nat → Nat) (idx pos_x pos_y : Nat) :
    ∀ (L : List Nat) (scr scr0 : Nat → Nat → Nat) (f : Bool),
      (∀ rr ∈ L, ∀ c, scr ((pos_y + rr) % SCREEN_HEIGHT) c = scr0 ((pos_y + rr) % SCREEN_HEIGHT) c) →
      L.Pairwise (fun a b => (pos_y + a) % SCREEN_HEIGHT ≠ (pos_y + b) % SCREEN_HEIGHT) →
      (L.foldl (fun sf rr => drawRow pos_x ((pos_y + rr) % SCREEN_HEIGHT) (memory (idx + rr)) sf) (scr, f)).2
        = (f || L.any fun rr => (List.range 8).any fun c0 =>
            decide (0 < scr0 ((pos_y + rr) % SCREEN_HEIGHT) ((pos_x + 7 - c0) % SCREEN_WIDTH)) &&
            decide (scr0 ((pos_y + rr) % SCREEN_HEIGHT) ((pos_x + 7 - c0) % SCREEN_WIDTH) ^^^
              ((memory (idx + rr) >>> c0) &&& 1) = 0)) := by
  intro L
  induction L with
  | nil =>
    intro scr scr0 f hagree hpw
    rw [List.foldl_nil, List.any_nil, Bool.or_false]
  | cons a L ih =>
    intro scr scr0 f hagree hpw
    rw [List.pairwise_cons] at hpw
    have ha := hagree a (List.mem_cons_self a L)
    rw [List.foldl_cons]
    have hagree2 : ∀ rr ∈ L, ∀ c,
        (drawRow pos_x ((pos_y + a) % SCREEN_HEIGHT) (memory (idx + a)) (scr, f)).1
            ((pos_y + rr) % SCREEN_HEIGHT) c
          = scr0 ((pos_y + rr) % SCREEN_HEIGHT) c := by
      intro rr hrr c
      rw [drawRow_other _ _ _ _ _ _ (hpw.1 rr hrr).symm]
      exact hagree rr (List.mem_cons_of_mem a hrr) c
    have hX : drawRow pos_x ((pos_y + a) % SCREEN_HEIGHT) (memory (idx + a)) (scr, f)
        = ((drawRow pos_x ((pos_y + a) % SCREEN_HEIGHT) (memory (idx + a)) (scr, f)).1,
           (drawRow pos_x ((pos_y + a) % SCREEN_HEIGHT) (memory (idx + a)) (scr, f)).2) := rfl
    rw [hX, ih _ scr0 _ hagree2 hpw.2, drawRow_flag]
    have hterm : (fun c0 => decide (0 < scr ((pos_y + a) % SCREEN_HEIGHT) ((pos_x + 7 - c0) % SCREEN_WIDTH)) &&
        decide (scr ((pos_y + a) % SCREEN_HEIGHT) ((pos_x + 7 - c0) % SCREEN_WIDTH) ^^^
          ((memory (idx + a) >>> c0) &&& 1) = 0))
        = (fun c0 => decide (0 < scr0 ((pos_y + a) % SCREEN_HEIGHT) ((pos_x + 7 - c0) % SCREEN_WIDTH)) &&
        decide (scr0 ((pos_y + a) % SCREEN_HEIGHT) ((pos_x + 7 - c0) % SCREEN_WIDTH) ^^^
          ((memory (idx + a) >>> c0) &&& 1) = 0)) := by
      funext c0
      rw [ha]
    rw [hterm, List.any_cons, Bool.or_assoc]

/-- Flag output of a whole sprite draw with initially clear flag:
collision is reported exactly when some set sprite bit lands on a
screen cell that makes the XOR turn a set pixel off, judged against
the pre-draw screen.  Requires the sprite height to be at most the
screen height so the targeted rows are distinct. -/
theorem drawSprite_flag (memory : Nat → Nat) (idx pos_x pos_y len : Nat)
    (scr : Nat → Nat → Nat) (hlen : len ≤ SCREEN_HEIGHT) :
    (drawSprite memory idx pos_x pos_y len (scr, false)).2
      = (List.range len).any fun rr => (List.range 8).any fun c0 =>
          decide (0 < scr ((pos_y + rr) % SCREEN_HEIGHT) ((pos_x + 7 - c0) % SCREEN_WIDTH)) &&
          decide (scr ((pos_y + rr) % SCREEN_HEIGHT) ((pos_x + 7 - c0) % SCREEN_WIDTH) ^^^
            ((memory (idx + rr) >>> c0) &&& 1) = 0) := by
  unfold drawSprite
  rw [drawSprite_flagFold memory idx pos_x pos_y (List.range len) scr scr false
    (fun _ _ _ => rfl) ?_]
  · rw [Bool.false_or]
  · refine (pairwise_range_bounded len).imp ?_
    intro a b hab
    have hb : b < SCREEN_HEIGHT := by omega
    simp only [SCREEN_HEIGHT] at hb ⊢
    omega

/-- The inner mask vanishes on every other screen row. -/
theorem innerMask_other_row (pos_x py row r c : Nat) (h : r ≠ py) :
    innerMask pos_x py row r c = 0 := by
  unfold innerMask
  exact maskFold_zero fun a _ => by unfold stepMask; rw [if_neg fun hc => h hc.1]

/-- The inner mask at the pixel targeted by bit `c0` is exactly that
sprite bit. -/
theorem innerMask_target (pos_x py row c0 : Nat) (hc0 : c0 < 8) :
    innerMask pos_x py row py ((pos_x + 7 - c0) % SCREEN_WIDTH) = (row >>> c0) &&& 1 := by
  unfold innerMask
  rw [maskFold_single (List.mem_range.2 hc0) (List.nodup_range 8) ?_]
  · unfold stepMask
    rw [if_pos ⟨rfl, rfl⟩]
  · intro a ha hne
    rw [List.mem_range] at ha
    unfold stepMask
    rw [if_neg ?_]
    intro hcc
    have := hcc.2
    simp only [SCREEN_WIDTH] at this
    omega

/-- The accumulated sprite mask at the cell targeted by row `rr`,
bit `c0` is exactly that sprite bit, for sprites no taller than the
screen. -/
theorem spriteMask_target (memory : Nat → Nat) (idx pos_x pos_y len rr c0 : Nat)
    (hrr : rr < len) (hlen : len ≤ SCREEN_HEIGHT) (hc0 : c0 < 8) :
    maskFold (spriteMask memory idx pos_x pos_y) (List.range len)
        ((pos_y + rr) % SCREEN_HEIGHT) ((pos_x + 7 - c0) % SCREEN_WIDTH)
      = (memory (idx + rr) >>> c0) &&& 1 := by
  rw [maskFold_single (List.mem_range.2 hrr) (List.nodup_range len) ?_]
  · unfold spriteMask
    exact innerMask_target pos_x _ _ c0 hc0
  · intro a ha hne
    rw [List.mem_range] at ha
    unfold spriteMask
    refine innerMask_other_row _ _ _ _ _ ?_
    have h32 : len ≤ 32 := by simpa [SCREEN_HEIGHT] using hlen
    simp only [SCREEN_HEIGHT]
    omega

/-- Concrete state with the collision flag set and no drawable content:
registers 15 = 1, all memory zero. -/
def C3state : Chip8InterpreterState :=
  { zeroState with registers := fun j => if j = 15 then 1 else 0 }

/-- C3 counterexample: a Draw whose execution causes no set-to-unset
transition (the sprite byte is 0x00) does NOT retain the prior value 1
of register 15 — it resets the flag to 0. -/
theorem chip8_c3_counterexample :
    C3state.registers 15 = 1 ∧
    ((dispatchOkState (dispatch 0 (.draw 0 1 1) C3state)).map fun s2 => s2.registers 15)
      = some 0 :=
  ⟨rfl, rfl⟩

/-- C3 amended: a Draw whose execution causes no pixel to transition
from set to unset sets register 15 to 0, overwriting (not retaining)
any previously stored collision flag. -/
theorem chip8_c3_no_collision_clears_flag (s : Chip8InterpreterState) (rng x y len : Nat)
    (hlen : len ≤ SCREEN_HEIGHT) (hbound : s.i + len ≤ MEMORY_SIZE)
    (hnone : ∀ rr, rr < len → ∀ c0, c0 < 8 →
      ¬(0 < s.screen ((s.registers y + rr) % SCREEN_HEIGHT) ((s.registers x + 7 - c0) % SCREEN_WIDTH) ∧
        s.screen ((s.registers y + rr) % SCREEN_HEIGHT) ((s.registers x + 7 - c0) % SCREEN_WIDTH) ^^^
          ((s.memory (s.i + rr) >>> c0) &&& 1) = 0)) :
    ∃ s2, dispatch rng (.draw x y len) s = .ok s2 ∧ s2.registers 15 = 0 := by
  have hd : dispatch rng (.draw x y len) s = .ok { s with
      screen := (drawSprite s.memory s.i (s.registers x) (s.registers y) len (s.screen, false)).1,
      registers := updFn s.registers 15 (if (drawSprite s.memory s.i (s.registers x) (s.registers y) len (s.screen, false)).2 then 1 else 0) } := by
    simp only [dispatch]
    rw [if_neg (by omega)]
  refine ⟨_, hd, ?_⟩
  show updFn s.registers 15
    (if (drawSprite s.memory s.i (s.registers x) (s.registers y) len (s.screen, false)).2 then 1 else 0) 15 = 0
  rw [updFn_eq, drawSprite_flag _ _ _ _ _ _ hlen]
  have hfalse : ((List.range len).any fun rr => (List.range 8).any fun c0 =>
      decide (0 < s.screen ((s.registers y + rr) % SCREEN_HEIGHT) ((s.registers x + 7 - c0) % SCREEN_WIDTH)) &&
      decide (s.screen ((s.registers y + rr) % SCREEN_HEIGHT) ((s.registers x + 7 - c0) % SCREEN_WIDTH) ^^^
        ((s.memory (s.i + rr) >>> c0) &&& 1) = 0)) = false := by
    simp only [List.any_eq_false, List.mem_range, Bool.not_eq_true, Bool.and_eq_false_iff,
      decide_eq_false_iff_not]
    intro rr hrr c0 hc0
    have h := hnone rr hrr c0 hc0
    by_cases h1 : 0 < s.screen ((s.registers y + rr) % SCREEN_HEIGHT) ((s.registers x + 7 - c0) % SCREEN_WIDTH)
    · exact Or.inr fun h2 => h ⟨h1, h2⟩
    · exact Or.inl h1
  rw [hfalse]
  rfl

/-- An in-bounds Draw dispatch succeeds and its effect is exactly
XOR-drawing the sprite and storing the collision flag. -/
theorem dispatch_draw_ok (rng x y len : Nat) (s : Chip8InterpreterState)
    (hbound : s.i + len ≤ MEMORY_SIZE) :
    dispatch rng (.draw x y len) s = .ok { s with
      screen := (drawSprite s.memory s.i (s.registers x) (s.registers y) len (s.screen, false)).1,
      registers := updFn s.registers 15 (if (drawSprite s.memory s.i (s.registers x) (s.registers y) len (s.screen, false)).2 then 1 else 0) } := by
  simp only [dispatch]
  rw [if_neg (by omega)]

/-- C7 amended: drawing the same in-bounds sprite twice in succession
(position registers not the flag register) restores the screen exactly,
and the second draw reports a collision whenever some set sprite pixel
targets a cell that was clear before the first draw. -/
theorem chip8_c7_double_draw (s : Chip8InterpreterState) (rng rng2 x y len : Nat)
    (hx : x ≠ 15) (hy : y ≠ 15) (hlen : len ≤ SCREEN_HEIGHT)
    (hbound : s.i + len ≤ MEMORY_SIZE) :
    ∃ s1 s2, dispatch rng (.draw x y len) s = .ok s1 ∧
      dispatch rng2 (.draw x y len) s1 = .ok s2 ∧
      s2.screen = s.screen ∧
      ((∃ rr, rr < len ∧ ∃ c0, c0 < 8 ∧
          (s.memory (s.i + rr) >>> c0) &&& 1 = 1 ∧
          s.screen ((s.registers y + rr) % SCREEN_HEIGHT) ((s.registers x + 7 - c0) % SCREEN_WIDTH) = 0)
        → s2.registers 15 = 1) := by
  have hd1 := dispatch_draw_ok rng x y len s hbound
  refine ⟨_, _, hd1, dispatch_draw_ok rng2 x y len _ hbound, ?_, ?_⟩
  case refine_1 =>
    funext r c
    have hrx : updFn s.registers 15 (if (drawSprite s.memory s.i (s.registers x) (s.registers y) len (s.screen, false)).2 then 1 else 0) x = s.registers x :=
      updFn_ne _ _ _ _ hx
    have hry : updFn s.registers 15 (if (drawSprite s.memory s.i (s.registers x) (s.registers y) len (s.screen, false)).2 then 1 else 0) y = s.registers y :=
      updFn_ne _ _ _ _ hy
    show (drawSprite s.memory s.i
        (updFn s.registers 15 (if (drawSprite s.memory s.i (s.registers x) (s.registers y) len (s.screen, false)).2 then 1 else 0) x)
        (updFn s.registers 15 (if (drawSprite s.memory s.i (s.registers x) (s.registers y) len (s.screen, false)).2 then 1 else 0) y)
        len ((drawSprite s.memory s.i (s.registers x) (s.registers y) len (s.screen, false)).1, false)).1 r c
      = s.screen r c
    rw [hrx, hry, drawSprite_screen, drawSprite_screen, Nat.xor_assoc, Nat.xor_self, Nat.xor_zero]
  case refine_2 =>
    rintro ⟨rr, hrr, c0, hc0, hbit, hclear⟩
    have hrx : updFn s.registers 15 (if (drawSprite s.memory s.i (s.registers x) (s.registers y) len (s.screen, false)).2 then 1 else 0) x = s.registers x :=
      updFn_ne _ _ _ _ hx
    have hry : updFn s.registers 15 (if (drawSprite s.memory s.i (s.registers x) (s.registers y) len (s.screen, false)).2 then 1 else 0) y = s.registers y :=
      updFn_ne _ _ _ _ hy
    show updFn
        (updFn s.registers 15 (if (drawSprite s.memory s.i (s.registers x) (s.registers y) len (s.screen, false)).2 then 1 else 0))
        15
        (if (drawSprite s.memory s.i
            (updFn s.registers 15 (if (drawSprite s.memory s.i (s.registers x) (s.registers y) len (s.screen, false)).2 then 1 else 0) x)
            (updFn s.registers 15 (if (drawSprite s.memory s.i (s.registers x) (s.registers y) len (s.screen, false)).2 then 1 else 0) y)
            len ((drawSprite s.memory s.i (s.registers x) (s.registers y) len (s.screen, false)).1, false)).2 then 1 else 0)
        15 = 1
    rw [updFn_eq, hrx, hry]
    rw [drawSprite_flag _ _ _ _ _ _ hlen]
    have hany : ((List.range len).any fun rr2 => (List.range 8).any fun c2 =>
        decide (0 < (drawSprite s.memory s.i (s.registers x) (s.registers y) len (s.screen, false)).1
          ((s.registers y + rr2) % SCREEN_HEIGHT) ((s.registers x + 7 - c2) % SCREEN_WIDTH)) &&
        decide ((drawSprite s.memory s.i (s.registers x) (s.registers y) len (s.screen, false)).1
          ((s.registers y + rr2) % SCREEN_HEIGHT) ((s.registers x + 7 - c2) % SCREEN_WIDTH) ^^^
          ((s.memory (s.i + rr2) >>> c2) &&& 1) = 0)) = true := by
      rw [List.any_eq_true]
      refine ⟨rr, List.mem_range.2 hrr, ?_⟩
      rw [List.any_eq_true]
      refine ⟨c0, List.mem_range.2 hc0, ?_⟩
      have hcell : (drawSprite s.memory s.i (s.registers x) (s.registers y) len (s.screen, false)).1
          ((s.registers y + rr) % SCREEN_HEIGHT) ((s.registers x + 7 - c0) % SCREEN_WIDTH) = 1 := by
        rw [drawSprite_screen]
        show s.screen ((s.registers y + rr) % SCREEN_HEIGHT) ((s.registers x + 7 - c0) % SCREEN_WIDTH) ^^^
            maskFold (spriteMask s.memory s.i (s.registers x) (s.registers y)) (List.range len)
              ((s.registers y + rr) % SCREEN_HEIGHT) ((s.registers x + 7 - c0) % SCREEN_WIDTH) = 1
        rw [hclear, Nat.zero_xor,
          spriteMask_target s.memory s.i (s.registers x) (s.registers y) len rr c0 hrr hlen hc0, hbit]
      rw [hcell, hbit]
      decide
    rw [hany]
    rfl

/-- Witness for the amended C3 at a concrete state: drawing a zero
sprite byte over a blank screen succeeds and stores flag 0. -/
theorem chip8_c3_witness :
    ∃ s2, dispatch 0 (.draw 0 1 1) C3state = .ok s2 ∧ s2.registers 15 = 0 :=
  chip8_c3_no_collision_clears_flag C3state 0 0 1 1 (by decide) (by decide) (by decide)

/-- Concrete state whose screen already has pixel (0,0) set and whose
sprite byte 0x80 at address 0 targets exactly that pixel. -/
def C7state : Chip8InterpreterState :=
  { zeroState with memory := fun a => if a = 0 then 128 else 0,
                   screen := fun r c => if r = 0 ∧ c = 0 then 1 else 0 }

/-- C7 counterexample: the sprite has a set pixel and the span is in
bounds, yet drawing it twice at the same position reports NO collision
on the second draw (register 15 ends at 0, not 1), because the first
draw turned the only targeted pixel off and the second turns it back
on. -/
theorem chip8_c7_counterexample :
    (C7state.memory C7state.i >>> 7) &&& 1 = 1 ∧
    C7state.i + 1 ≤ MEMORY_SIZE ∧
    ((dispatchOkState (dispatch 0 (.draw 0 1 1) C7state)).bind fun s1 =>
      (dispatchOkState (dispatch 0 (.draw 0 1 1) s1)).map fun s2 => s2.registers 15) = some 0 :=
  ⟨rfl, by decide, rfl⟩

/-- Concrete state with a blank screen and the sprite byte 0x80 at
address 0. -/
def C7clear : Chip8InterpreterState :=
  { zeroState with memory := fun a => if a = 0 then 128 else 0 }

/-- Witness for the amended C7 at a concrete state. -/
theorem chip8_c7_witness :
    ∃ s1 s2, dispatch 0 (.draw 0 1 1) C7clear = .ok s1 ∧
      dispatch 0 (.draw 0 1 1) s1 = .ok s2 ∧
      s2.screen = C7clear.screen ∧
      ((∃ rr, rr < 1 ∧ ∃ c0, c0 < 8 ∧
          (C7clear.memory (C7clear.i + rr) >>> c0) &&& 1 = 1 ∧
          C7clear.screen ((C7clear.registers 1 + rr) % SCREEN_HEIGHT)
            ((C7clear.registers 0 + 7 - c0) % SCREEN_WIDTH) = 0)
        → s2.registers 15 = 1) :=
  chip8_c7_double_draw C7clear 0 0 0 1 1 (by decide) (by decide) (by decide) (by decide)
